import Mathlib

/-!
Verification development for the options-analytics core of src/app.py.

The Python source is shallowly embedded: pure numeric routines become Lean
functions over exact arithmetic (rationals where the computation is
algebraic, reals where it is transcendental), ambient wall-clock reads and
the shared mutable maps become explicit parameters, and caught Python
exceptions become explicit guard branches that return the documented
default value.
-/

open MeasureTheory intervalIntegral Set

/-! ## Time-series store (update_historical_data, src/app.py lines 459-470)

The per-key state is the deque with maxlen 600.  Appending to a full
bounded deque evicts the oldest element, which on lists is: append, then
drop from the front down to the capacity. -/

/-- One (timestamp, cumulative volume, open interest) sample, as stored in
the per-key deque of historical_data. -/
structure QuoteSample where
  ts : ℚ
  volume : ℚ
  oi : ℚ
deriving DecidableEq, Repr

/-- Append to a capacity-bounded deque: Python deque(maxlen=cap).append x.
When the deque is at capacity the oldest (front) element is evicted. -/
def boundedAppend (cap : ℕ) (q : List α) (x : α) : List α :=
  ((q ++ [x]).drop ((q ++ [x]).length - cap))

/-- update_historical_data restricted to one contract key: the only effect
on that key is appending the new sample to its deque of maxlen 600. -/
def update_historical_data (q : List QuoteSample) (s : QuoteSample) : List QuoteSample :=
  boundedAppend 600 q s

/-- Appending a whole list of samples, one call at a time. -/
def appendAll (cap : ℕ) (q : List α) (xs : List α) : List α :=
  xs.foldl (boundedAppend cap) q

/-! ## Delta calculator (get_change_data, src/app.py lines 472-508)

The unknown-index / unknown-key / short-series cases all return
(None, None); a series of fewer than two samples is the only way they
manifest per key, so the embedding takes the per-key sample list directly.
The Python code reads the wall clock (get_mumbai_time().timestamp());
that ambient read is the explicit current_time parameter here. -/

/-- get_change_data on the sample list of one key.  current_time is the
wall-clock value the source reads inside the function. -/
def get_change_data (q : List QuoteSample) (current_time minutes : ℚ) :
    Option (ℚ × ℚ) :=
  match q with
  | [] => none
  | [_] => none
  | s :: t :: rest =>
    let target_time := current_time - minutes * 60
    let cur := (s :: t :: rest).getLastD s
    let old := ((s :: t :: rest).find? (fun p => decide (target_time ≤ p.ts))).getD s
    some (cur.volume - old.volume, cur.oi - old.oi)

/-- Modelled from the spec: the baseline-selection rule exactly as claim C2
words it, with targetTime computed from the latest SAMPLE time rather than
from the wall clock.  Used only to compare against the source function. -/
def get_change_data_claimed (q : List QuoteSample) (minutes : ℚ) :
    Option (ℚ × ℚ) :=
  match q with
  | [] => none
  | [_] => none
  | s :: t :: rest =>
    let cur := (s :: t :: rest).getLastD s
    let target_time := cur.ts - minutes * 60
    let old := ((s :: t :: rest).find? (fun p => decide (target_time ≤ p.ts))).getD s
    some (cur.volume - old.volume, cur.oi - old.oi)

/-! ## Gamma scorer (calculate_gamma_exposure, src/app.py lines 148-189)

All arithmetic is algebraic, so the embedding is exact over ℚ.  The only
arithmetic failure the Python body can raise is the ZeroDivisionError of
abs(spot - strike) / spot at spot = 0; the bare except turns it into 0,
which the spot_price = 0 guard models.  The optional volume_change and
oi_change arguments model the Python None checks. -/

/-- calculate_gamma_exposure from the source.  Returns the unclamped sum
proximity + volume + oi + type score; the source has no final clamp. -/
def calculate_gamma_exposure (spot_price strike_price : ℚ) (option_type : String)
    (volume : ℚ) (volume_change : Option ℚ) (oi : ℚ) (oi_change : Option ℚ) : ℚ :=
  if spot_price = 0 then 0
  else
    let distance_from_atm := |spot_price - strike_price| / spot_price
    let proximity_score := max 0 (1 - distance_from_atm) * 30
    let volume_score :=
      match volume_change with
      | some vc => if 0 < volume then min (|vc| / volume * 100) 30 else 0
      | none => 0
    let oi_score :=
      match oi_change with
      | some oc => if 0 < oi then min (|oc| / oi * 100) 30 else 0
      | none => 0
    let type_score : ℚ :=
      if option_type = "CE" then
        (if strike_price ≤ spot_price then 10 else 5)
      else
        (if spot_price ≤ strike_price then 10 else 5)
    proximity_score + volume_score + oi_score + type_score

/-! ## Position ledger (add_position, exit_position, scalping_data P&L,
src/app.py lines 1888-1944 and 2038-2055)

A stored position is the dict appended by add_position or the strategy
builder; add_position writes no action key at all, which the optional
action field models as none.  The live ledger user_scalping_positions,
restricted to the current day, is a function from username to the bucket
list. -/

/-- One stored position dict of the scalping ledger. -/
structure ScalpPosition where
  id : String
  strike : ℚ
  type : String
  entry_ltp : ℚ
  entry_time : String
  lot_size : ℚ
  strategy : String
  action : Option String
  user : String
deriving DecidableEq, Repr

/-- One row of the per-cycle option-chain dataframe, with the columns the
P&L loop of scalping_data reads. -/
structure OptionQuote where
  strike_price : ℚ
  option_type : String
  ltp : ℚ
deriving DecidableEq, Repr

/-- The position dict built by add_position: lot_size 75, strategy MANUAL,
and no action key. -/
def add_position (strike : ℚ) (option_type : String) (ltp : ℚ)
    (username pos_id entry_time : String) : ScalpPosition :=
  { id := pos_id, strike := strike, type := option_type, entry_ltp := ltp,
    entry_time := entry_time, lot_size := 75, strategy := "MANUAL",
    action := none, user := username }

/-- The current-price lookup of the P&L loop: the first dataframe row
matching the position strike and type; if no row matches, the entry price
is used. -/
def current_ltp (df : List OptionQuote) (pos : ScalpPosition) : ℚ :=
  ((df.find? (fun r => decide (r.strike_price = pos.strike) &&
      decide (r.option_type = pos.type))).map (fun r => r.ltp)).getD pos.entry_ltp

/-- The per-leg P&L of the scalping_data loop: action defaults to buy when
the key is absent; sell legs gain when price falls. -/
def scalping_position_pnl (df : List OptionQuote) (pos : ScalpPosition) : ℚ :=
  if pos.action.getD "buy" = "sell" then
    (pos.entry_ltp - current_ltp df pos) * pos.lot_size
  else
    (current_ltp df pos - pos.entry_ltp) * pos.lot_size

/-- The running total_pnl accumulation of the scalping_data loop. -/
def scalping_total_pnl (df : List OptionQuote) (positions : List ScalpPosition) : ℚ :=
  positions.foldl (fun acc pos => acc + scalping_position_pnl df pos) 0

/-- The list filter of exit_position, applied to the day bucket of the
requesting user: a position survives unless its id matches and the
requester owns it or is admin. -/
def exit_filter (positions : List ScalpPosition) (username : String)
    (is_admin : Bool) (pos_id : String) : List ScalpPosition :=
  positions.filter (fun p =>
    decide (p.id ≠ pos_id) || (decide (p.user ≠ username) && !is_admin))

/-- exit_position: the route reads the session username, filters only the
day bucket of that same username, and always answers success. -/
def exit_position (ledger : String → List ScalpPosition) (username : String)
    (is_admin : Bool) (pos_id : String) :
    (String → List ScalpPosition) × String :=
  (fun u => if u = username then exit_filter (ledger u) username is_admin pos_id
            else ledger u,
   "success")

/-! ## Pricing engine (calculate_option_fair_value and norm_cdf,
src/app.py lines 22-52)

The transcendental arithmetic is embedded over ℝ.  math.erf is the error
function, defined here by its integral; math raises on log of a
non-positive argument and on float division by zero, and the bare except
turns both into 0, which the guards model: with strike positive, the log
argument is non-positive exactly when spot is, and the d1 denominator is
zero exactly when volatility is. -/

/-- The error function math.erf. -/
noncomputable def erf (x : ℝ) : ℝ :=
  (2 / Real.sqrt Real.pi) * ∫ t in (0:ℝ)..x, Real.exp (-t ^ 2)

/-- norm_cdf from the source: (1.0 + math.erf(x / math.sqrt(2.0))) / 2.0. -/
noncomputable def norm_cdf (x : ℝ) : ℝ :=
  (1 + erf (x / Real.sqrt 2)) / 2

/-- calculate_option_fair_value from the source.  The time term is
max(days_to_expiry / 365, 0.01) exactly as line 29 computes it. -/
noncomputable def calculate_option_fair_value (spot_price strike_price : ℝ)
    (option_type : String) (days_to_expiry volatility risk_free_rate : ℝ) : ℝ :=
  let t := max (days_to_expiry / 365) 0.01
  if 0 < strike_price then
    if 0 < spot_price ∧ volatility ≠ 0 then
      let d1 := (Real.log (spot_price / strike_price)
          + (risk_free_rate + 0.5 * volatility ^ 2) * t) / (volatility * Real.sqrt t)
      let d2 := d1 - volatility * Real.sqrt t
      if option_type = "CE" then
        max (spot_price * norm_cdf d1
            - strike_price * Real.exp (-risk_free_rate * t) * norm_cdf d2) 0
      else
        max (strike_price * Real.exp (-risk_free_rate * t) * norm_cdf (-d2)
            - spot_price * norm_cdf (-d1)) 0
    else 0
  else 0

/-- Modelled from the spec: the fair-value routine exactly as claim C1
words it, whose only difference from the source is the time-term floor
1/365 in place of the 0.01 of line 29.  Used only to compare against the
source function. -/
noncomputable def fair_value_claimed (spot_price strike_price : ℝ)
    (option_type : String) (days_to_expiry volatility risk_free_rate : ℝ) : ℝ :=
  let t := max (days_to_expiry / 365) (1 / 365)
  if 0 < strike_price then
    if 0 < spot_price ∧ volatility ≠ 0 then
      let d1 := (Real.log (spot_price / strike_price)
          + (risk_free_rate + 0.5 * volatility ^ 2) * t) / (volatility * Real.sqrt t)
      let d2 := d1 - volatility * Real.sqrt t
      if option_type = "CE" then
        max (spot_price * norm_cdf d1
            - strike_price * Real.exp (-risk_free_rate * t) * norm_cdf d2) 0
      else
        max (strike_price * Real.exp (-risk_free_rate * t) * norm_cdf (-d2)
            - spot_price * norm_cdf (-d1)) 0
    else 0
  else 0

/-! ## Ranker (get_best_options, src/app.py lines 102-145)

The dataframe is a row list; market numbers (strike, ltp, spot) are the
exact rationals behind the floats, while the derived discount column is
real-valued because it goes through the pricing engine.  sort_values with
ascending False followed by head(limit) is sorting by the descending
discount key and taking the first limit rows. -/

/-- One row of the option-chain dataframe as get_best_options reads it. -/
structure ContractRow where
  strike_price : ℚ
  option_type : String
  ltp : ℚ
deriving DecidableEq, Repr

/-- The discount column: (fair_value - ltp) / fair_value * 100, with the
pricing defaults days 7, volatility 0.2, rate 0.06 of the call site. -/
noncomputable def discountOf (spot : ℚ) (option_type : String) (row : ContractRow) : ℝ :=
  let fair := calculate_option_fair_value (spot : ℝ) (row.strike_price : ℝ)
      option_type 7 0.2 0.06
  (fair - (row.ltp : ℝ)) / fair * 100

/-- get_best_options from the source: filter the requested kind, keep the
approx at/in-the-money strikes, sort by discount descending, take the top
limit rows. -/
noncomputable def get_best_options (df : List ContractRow) (spot : ℚ)
    (option_type : String) (limit : ℕ) : List ContractRow :=
  let filtered := df.filter (fun r => decide (r.option_type = option_type))
  let atm_itm :=
    if option_type = "PE" then
      filtered.filter (fun r => decide (spot - 100 ≤ r.strike_price))
    else
      filtered.filter (fun r => decide (r.strike_price ≤ spot + 100))
  (atm_itm.mergeSort (fun a b =>
      decide (discountOf spot option_type b ≤ discountOf spot option_type a))).take limit

/-! ## Theorems.  Helper lemmas first, then one theorem per claim. -/

theorem drop_cap_append (cap : ℕ) (l xs : List α) :
    ((l.drop (l.length - cap)) ++ xs).drop
        (((l.drop (l.length - cap)) ++ xs).length - cap)
      = (l ++ xs).drop ((l ++ xs).length - cap) := by
  by_cases h : l.length ≤ cap
  · rw [Nat.sub_eq_zero_of_le h]
    simp
  · push_neg at h
    have hm : l.length - cap ≤ l.length := Nat.sub_le _ _
    have h1 : (l ++ xs).length - cap = (l.length - cap) + xs.length := by
      simp [List.length_append]; omega
    have h2 : ((l.drop (l.length - cap)) ++ xs).length - cap = xs.length := by
      simp [List.length_append, List.length_drop]; omega
    rw [h1, h2, ← List.drop_drop, List.drop_append_of_le_length hm]

theorem appendAll_drop (cap : ℕ) (q xs : List α) (hq : q.length ≤ cap) :
    appendAll cap q xs = (q ++ xs).drop ((q ++ xs).length - cap) := by
  induction xs generalizing q with
  | nil => simp [appendAll, Nat.sub_eq_zero_of_le hq]
  | cons x xs ih =>
    have h2 : (boundedAppend cap q x).length ≤ cap := by
      simp [boundedAppend, List.length_drop]
      omega
    have step : appendAll cap q (x :: xs) = appendAll cap (boundedAppend cap q x) xs := rfl
    rw [step, ih _ h2]
    simp only [boundedAppend]
    rw [drop_cap_append cap (q ++ [x]) xs]
    simp

/-- Claim C5: appending C + k samples to an empty capacity-C series leaves
exactly the most recent C samples in insertion order, the series length
never exceeds C after any number of appends, and update_historical_data is
exactly the capacity-600 bounded append. -/
theorem C5_capacity (C k : ℕ) (xs : List QuoteSample) (h : xs.length = C + k) :
    appendAll C ([] : List QuoteSample) xs = xs.drop k
    ∧ (∀ n, (appendAll C ([] : List QuoteSample) (xs.take n)).length ≤ C)
    ∧ (∀ q s, update_historical_data q s = boundedAppend 600 q s) := by
  refine ⟨?_, ?_, fun q s => rfl⟩
  · rw [appendAll_drop C [] xs (by simp)]
    simp [h]
  · intro n
    rw [appendAll_drop C [] (xs.take n) (by simp)]
    simp only [List.nil_append, List.length_drop, List.length_take]
    omega

/-- Concrete instance of claim C5 with capacity 2 and one overflow. -/
theorem C5_capacity_witness :
    ([(⟨0, 100, 500⟩ : QuoteSample), ⟨30, 120, 520⟩, ⟨65, 140, 530⟩].length = 2 + 1)
    ∧ appendAll 2 ([] : List QuoteSample)
        [⟨0, 100, 500⟩, ⟨30, 120, 520⟩, ⟨65, 140, 530⟩]
      = [⟨30, 120, 520⟩, ⟨65, 140, 530⟩] :=
  ⟨by decide, by
    have h := (C5_capacity 2 1 [⟨0, 100, 500⟩, ⟨30, 120, 520⟩, ⟨65, 140, 530⟩]
        (by decide)).1
    simpa using h⟩

/-- Claim C2 counterexample: with samples at t = 0, 30, 65 and a wall
clock of 100, the source computes targetTime from the wall clock and
answers (0, 0), while the claimed rule (targetTime from the latest sample
time) answers (20, 10). -/
theorem C2_counterexample :
    get_change_data [⟨0, 100, 500⟩, ⟨30, 120, 520⟩, ⟨65, 140, 530⟩] 100 1 = some (0, 0)
    ∧ get_change_data_claimed [⟨0, 100, 500⟩, ⟨30, 120, 520⟩, ⟨65, 140, 530⟩] 1
        = some (20, 10)
    ∧ get_change_data [⟨0, 100, 500⟩, ⟨30, 120, 520⟩, ⟨65, 140, 530⟩] 100 1
        ≠ get_change_data_claimed [⟨0, 100, 500⟩, ⟨30, 120, 520⟩, ⟨65, 140, 530⟩] 1 := by
  have h1 : get_change_data [⟨0, 100, 500⟩, ⟨30, 120, 520⟩, ⟨65, 140, 530⟩] 100 1
      = some (0, 0) := by
    simp only [get_change_data, List.find?, List.getLastD]
    norm_num
  have h2 : get_change_data_claimed [⟨0, 100, 500⟩, ⟨30, 120, 520⟩, ⟨65, 140, 530⟩] 1
      = some (20, 10) := by
    simp only [get_change_data_claimed, List.find?, List.getLastD]
    norm_num
  refine ⟨h1, h2, by rw [h1, h2]; norm_num [Prod.ext_iff]⟩

/-- Claim C2 (amended): on a series of at least two samples the delta is
latest minus baseline, where the baseline is the first sample whose
timestamp is at least targetTime = currentTime - minutes * 60 (currentTime
being the wall clock at the moment of the call), falling back to the
oldest sample when no sample qualifies; on the samples of the claim,
evaluated at wall clock 65, the answer is (20, 10). -/
theorem C2_delta (s t : QuoteSample) (rest : List QuoteSample) (now minutes : ℚ) :
    (∃ b : QuoteSample,
      get_change_data (s :: t :: rest) now minutes
        = some (((s :: t :: rest).getLastD s).volume - b.volume,
                ((s :: t :: rest).getLastD s).oi - b.oi)
      ∧ ((∃ l₁ l₂, s :: t :: rest = l₁ ++ b :: l₂
            ∧ now - minutes * 60 ≤ b.ts
            ∧ ∀ p ∈ l₁, p.ts < now - minutes * 60)
         ∨ (b = s ∧ ∀ p ∈ s :: t :: rest, p.ts < now - minutes * 60)))
    ∧ get_change_data [⟨0, 100, 500⟩, ⟨30, 120, 520⟩, ⟨65, 140, 530⟩] 65 1
        = some (20, 10) := by
  have hex : get_change_data [⟨0, 100, 500⟩, ⟨30, 120, 520⟩, ⟨65, 140, 530⟩] 65 1
      = some (20, 10) := by
    simp only [get_change_data, List.find?, List.getLastD]
    norm_num
  refine ⟨?_, hex⟩
  rcases hf : (s :: t :: rest).find?
      (fun p => decide (now - minutes * 60 ≤ p.ts)) with _ | b
  · refine ⟨s, ?_, Or.inr ⟨rfl, ?_⟩⟩
    · simp only [get_change_data, hf, Option.getD_none]
    · intro p hp
      have h0 := List.find?_eq_none.mp hf p hp
      simp only [decide_eq_true_eq] at h0
      exact not_le.mp h0
  · rcases List.find?_eq_some.mp hf with ⟨hb, l₁, l₂, hsplit, hbefore⟩
    refine ⟨b, ?_, Or.inl ⟨l₁, l₂, hsplit, by simpa using hb, ?_⟩⟩
    · simp only [get_change_data, hf, Option.getD_some]
    · intro p hp
      have h0 := hbefore p hp
      simp only [Bool.not_eq_true', decide_eq_false_iff_not] at h0
      exact not_le.mp h0

theorem foldl_add_eq_sum {α : Type} (f : α → ℚ) (l : List α) (c : ℚ) :
    l.foldl (fun acc x => acc + f x) c = c + (l.map f).sum := by
  induction l generalizing c with
  | nil => simp
  | cons x xs ih => simp [ih, add_assoc]

/-- Claim C3: per-leg live P&L is (current - entry) * lotSize for a buy
leg and (entry - current) * lotSize for a sell leg; a missing quote makes
the leg P&L zero because the entry price stands in for the current price;
the reported total is the sum over the legs of the day bucket; and the
concrete entry 100 / current 80 / lot 75 example gives -1500 for buy and
+1500 for sell. -/
theorem C3_pnl (df : List OptionQuote) (pos : ScalpPosition) :
    (pos.action.getD "buy" = "sell" →
      scalping_position_pnl df pos = (pos.entry_ltp - current_ltp df pos) * pos.lot_size)
    ∧ (pos.action.getD "buy" ≠ "sell" →
      scalping_position_pnl df pos = (current_ltp df pos - pos.entry_ltp) * pos.lot_size)
    ∧ (df.find? (fun r => decide (r.strike_price = pos.strike) &&
          decide (r.option_type = pos.type)) = none →
        scalping_position_pnl df pos = 0)
    ∧ (∀ positions, scalping_total_pnl df positions
        = (positions.map (scalping_position_pnl df)).sum)
    ∧ scalping_position_pnl [⟨100, "CE", 80⟩]
        ⟨"p1", 100, "CE", 100, "t", 75, "MANUAL", some "buy", "u"⟩ = -1500
    ∧ scalping_position_pnl [⟨100, "CE", 80⟩]
        ⟨"p1", 100, "CE", 100, "t", 75, "MANUAL", some "sell", "u"⟩ = 1500 := by
  refine ⟨?_, ?_, ?_, ?_, ?_, ?_⟩
  · intro h
    simp [scalping_position_pnl, h]
  · intro h
    simp [scalping_position_pnl, h]
  · intro h
    have hcur : current_ltp df pos = pos.entry_ltp := by
      simp [current_ltp, h]
    by_cases ha : pos.action.getD "buy" = "sell" <;>
      simp [scalping_position_pnl, ha, hcur]
  · intro positions
    simpa using foldl_add_eq_sum (scalping_position_pnl df) positions 0
  · norm_num [scalping_position_pnl, current_ltp, List.find?]
    decide
  · norm_num [scalping_position_pnl, current_ltp, List.find?]

/-- Concrete instance of the sell branch of claim C3. -/
theorem C3_pnl_witness :
    scalping_position_pnl [⟨100, "CE", 80⟩]
        ⟨"p1", 100, "CE", 100, "t", 75, "MANUAL", some "sell", "u"⟩
      = ((⟨"p1", 100, "CE", 100, "t", 75, "MANUAL", some "sell", "u"⟩ :
            ScalpPosition).entry_ltp
          - current_ltp [⟨100, "CE", 80⟩]
            ⟨"p1", 100, "CE", 100, "t", 75, "MANUAL", some "sell", "u"⟩) * 75 :=
  (C3_pnl [⟨100, "CE", 80⟩]
    ⟨"p1", 100, "CE", 100, "t", 75, "MANUAL", some "sell", "u"⟩).1 (by rfl)

/-- Claim C4 counterexample: an admin requester does not remove a matching
position from the bucket of another user, because the route only filters
the bucket of the session user.  Here user alice holds position x, the
requester is admin with the admin flag set, yet the position survives. -/
theorem C4_counterexample :
    ¬ (∀ (ledger : String → List ScalpPosition) (user requester : String)
        (admin : Bool) (pos_id : String) (p : ScalpPosition),
        p ∈ ledger user → p.id = pos_id →
        (p ∉ (exit_position ledger requester admin pos_id).1 user
          ↔ (requester = user ∨ admin = true))) := by
  intro h
  have hinst := h
    (fun u => if u = "alice"
      then [⟨"x", 100, "CE", 10, "t", 75, "MANUAL", some "buy", "alice"⟩] else [])
    "alice" "admin" true "x"
    ⟨"x", 100, "CE", 10, "t", 75, "MANUAL", some "buy", "alice"⟩
    (by simp) rfl
  have hmem : (⟨"x", 100, "CE", 10, "t", 75, "MANUAL", some "buy", "alice"⟩ :
      ScalpPosition) ∈ (exit_position
        (fun u => if u = "alice"
          then [⟨"x", 100, "CE", 10, "t", 75, "MANUAL", some "buy", "alice"⟩] else [])
        "admin" true "x").1 "alice" := by
    simp [exit_position]
  exact (hinst.mpr (Or.inr rfl)) hmem

/-- Claim C4 (amended): exit_position always answers success, never
touches the day bucket of any user other than the requesting session
user, and within the requesting user's own bucket removes a position
exactly when its id matches the request and the position's recorded owner
is the requester or the requester is admin. -/
theorem C4_exit (ledger : String → List ScalpPosition) (username : String)
    (admin : Bool) (pos_id : String) :
    (exit_position ledger username admin pos_id).2 = "success"
    ∧ (∀ u, u ≠ username → (exit_position ledger username admin pos_id).1 u = ledger u)
    ∧ (∀ p, p ∈ (exit_position ledger username admin pos_id).1 username ↔
        (p ∈ ledger username
          ∧ (p.id ≠ pos_id ∨ (p.user ≠ username ∧ admin = false)))) := by
  refine ⟨rfl, ?_, ?_⟩
  · intro u hu
    simp [exit_position, hu]
  · intro p
    cases admin <;>
      simp [exit_position, exit_filter, List.mem_filter]

/-- Concrete instance of claim C4: a request by bob against the bucket of
alice leaves that bucket exactly as it was. -/
theorem C4_exit_witness :
    (exit_position
        (fun u => if u = "alice"
          then [⟨"x", 100, "CE", 10, "t", 75, "MANUAL", some "buy", "alice"⟩] else [])
        "bob" false "x").1 "alice"
      = [⟨"x", 100, "CE", 10, "t", 75, "MANUAL", some "buy", "alice"⟩] := by
  have h := (C4_exit
    (fun u => if u = "alice"
      then [⟨"x", 100, "CE", 10, "t", 75, "MANUAL", some "buy", "alice"⟩] else [])
    "bob" false "x").2.1 "alice" (by decide)
  simpa using h

/-- Claim C6 counterexample: with a negative spot the proximity term is
unbounded because abs(spot - strike) / spot is negative, so the score 155
escapes [0, 100]; the source has no final clamp. -/
theorem C6_counterexample :
    calculate_gamma_exposure (-100) 100 "CE" 1 (some 1) 1 (some 1) = 155
    ∧ ¬ (calculate_gamma_exposure (-100) 100 "CE" 1 (some 1) 1 (some 1) ≤ 100) := by
  have h : calculate_gamma_exposure (-100) 100 "CE" 1 (some 1) 1 (some 1) = 155 := by
    have habs : |(-100 : ℚ) - 100| = 200 := by
      rw [abs_of_nonpos] <;> norm_num
    norm_num [calculate_gamma_exposure, habs]
  refine ⟨h, by rw [h]; norm_num⟩

/-- Claim C6 (amended): for every positive spot the gamma-exposure score
lies in [0, 100] whatever the other inputs are, and the spot 0 arithmetic
failure yields 0. -/
theorem C6_gamma (spot strike : ℚ) (ty : String) (volume : ℚ)
    (vc : Option ℚ) (oi : ℚ) (oc : Option ℚ) (h : 0 < spot) :
    (0 ≤ calculate_gamma_exposure spot strike ty volume vc oi oc
      ∧ calculate_gamma_exposure spot strike ty volume vc oi oc ≤ 100)
    ∧ (∀ strike2 volume2 vc2 oi2 oc2,
        calculate_gamma_exposure 0 strike2 ty volume2 vc2 oi2 oc2 = 0) := by
  have key : ∀ (w : ℚ) (wc : Option ℚ),
      0 ≤ (match wc with
        | some v => if 0 < w then min (|v| / w * 100) 30 else (0 : ℚ)
        | none => 0)
      ∧ (match wc with
        | some v => if 0 < w then min (|v| / w * 100) 30 else (0 : ℚ)
        | none => 0) ≤ 30 := by
    intro w wc
    rcases wc with _ | v
    · norm_num
    · by_cases hw : 0 < w
      · simp only [hw, if_true]
        exact ⟨le_min (by positivity) (by norm_num), min_le_right _ _⟩
      · simp [hw]
  constructor
  · have hne : spot ≠ 0 := ne_of_gt h
    simp only [calculate_gamma_exposure, if_neg hne]
    have hd0 : 0 ≤ |spot - strike| / spot := div_nonneg (abs_nonneg _) h.le
    have hp0 : 0 ≤ max 0 (1 - |spot - strike| / spot) * 30 := by positivity
    have hp1 : max 0 (1 - |spot - strike| / spot) * 30 ≤ 30 := by
      have hm : max 0 (1 - |spot - strike| / spot) ≤ 1 :=
        max_le (by norm_num) (by linarith)
      linarith
    have hv := key volume vc
    have ho := key oi oc
    have ht : (0 : ℚ) ≤ (if ty = "CE" then (if strike ≤ spot then (10 : ℚ) else 5)
          else (if spot ≤ strike then 10 else 5))
        ∧ (if ty = "CE" then (if strike ≤ spot then (10 : ℚ) else 5)
          else (if spot ≤ strike then 10 else 5)) ≤ 10 := by
      split_ifs <;> norm_num
    exact ⟨by linarith [hv.1, ho.1, ht.1],
           by linarith [hv.2, ho.2, ht.2]⟩
  · intro strike2 volume2 vc2 oi2 oc2
    simp [calculate_gamma_exposure]

/-- Concrete instance of claim C6 at spot 1. -/
theorem C6_gamma_witness :
    0 ≤ calculate_gamma_exposure 1 1 "CE" 1 none 1 none
    ∧ calculate_gamma_exposure 1 1 "CE" 1 none 1 none ≤ 100 :=
  (C6_gamma 1 1 "CE" 1 none 1 none (by norm_num)).1

/-- Claim C10: add_position stores no action key, the live P&L loop
treats a position without an action as a buy leg, so every manually added
position is valued with the buy formula (current - entry) * 75. -/
theorem C10_manual_buy (strike : ℚ) (ty : String) (ltp : ℚ)
    (username pos_id entry_time : String) (df : List OptionQuote) :
    (add_position strike ty ltp username pos_id entry_time).action = none
    ∧ scalping_position_pnl df (add_position strike ty ltp username pos_id entry_time)
        = (current_ltp df (add_position strike ty ltp username pos_id entry_time)
            - ltp) * 75
    ∧ (∀ pos : ScalpPosition, pos.action = none →
        scalping_position_pnl df pos
          = (current_ltp df pos - pos.entry_ltp) * pos.lot_size) := by
  refine ⟨rfl, ?_, ?_⟩
  · simp [scalping_position_pnl, add_position]
  · intro pos hpos
    simp [scalping_position_pnl, hpos]

/-- Concrete instance of claim C10: a position without an action key is
valued with the buy formula. -/
theorem C10_manual_buy_witness :
    scalping_position_pnl []
        ⟨"p1", 100, "CE", 10, "t", 75, "MANUAL", none, "u"⟩
      = (current_ltp [] ⟨"p1", 100, "CE", 10, "t", 75, "MANUAL", none, "u"⟩ - 10) * 75 :=
  (C10_manual_buy 100 "CE" 10 "u" "p1" "t" []).2.2
    ⟨"p1", 100, "CE", 10, "t", 75, "MANUAL", none, "u"⟩ rfl

theorem mem_of_mem_take_mergeSort {α : Type} (le : α → α → Bool) (l : List α)
    (n : ℕ) (x : α) (hx : x ∈ (l.mergeSort le).take n) : x ∈ l := by
  have h1 := List.take_subset _ _ hx
  rwa [List.mem_mergeSort] at h1

theorem pairwise_take_mergeSort {α : Type} (k : α → ℝ) (l : List α) (n : ℕ) :
    List.Pairwise (fun a b => k b ≤ k a)
      ((l.mergeSort (fun a b => decide (k b ≤ k a))).take n) := by
  have hs := @List.sorted_mergeSort _
    (fun a b => decide (k b ≤ k a))
    (fun a b c hab hbc => by
      simp only [decide_eq_true_eq] at hab hbc ⊢
      exact le_trans hbc hab)
    (fun a b => by
      simp only [Bool.or_eq_true, decide_eq_true_eq]
      exact le_total _ _)
    l
  have hp : List.Pairwise (fun a b => k b ≤ k a)
      (l.mergeSort (fun a b => decide (k b ≤ k a))) :=
    hs.imp (fun h => of_decide_eq_true h)
  exact hp.sublist (List.take_sublist _ _)

/-- Claim C7: the discount ranker returns only contracts of the requested
kind, never a PUT with strike below spot - 100 nor a CALL with strike
above spot + 100, at most limit rows, and the rows it returns are ordered
by discount percent descending. -/
theorem C7_ranker (df : List ContractRow) (spot : ℚ) (limit : ℕ) :
    ((get_best_options df spot "PE" limit).all
        (fun c => decide (c.option_type = "PE")
          && decide (spot - 100 ≤ c.strike_price)) = true)
    ∧ ((get_best_options df spot "CE" limit).all
        (fun c => decide (c.option_type = "CE")
          && decide (c.strike_price ≤ spot + 100)) = true)
    ∧ (∀ ty, (get_best_options df spot ty limit).length ≤ limit)
    ∧ (∀ ty, List.Pairwise
        (fun a b => discountOf spot ty b ≤ discountOf spot ty a)
        (get_best_options df spot ty limit)) := by
  refine ⟨?_, ?_, ?_, ?_⟩
  · rw [List.all_eq_true]
    intro c hc
    simp only [get_best_options, if_true] at hc
    have h2 := mem_of_mem_take_mergeSort _ _ _ _ hc
    rw [List.mem_filter] at h2
    rcases h2 with ⟨h3, h4⟩
    rw [List.mem_filter] at h3
    simp only [decide_eq_true_eq] at h3 h4
    simp only [Bool.and_eq_true, decide_eq_true_eq]
    exact ⟨h3.2, h4⟩
  · rw [List.all_eq_true]
    intro c hc
    simp only [get_best_options, if_false] at hc
    have h2 := mem_of_mem_take_mergeSort _ _ _ _ hc
    rw [if_neg (by decide : ¬ ("CE" = "PE"))] at h2
    rw [List.mem_filter] at h2
    rcases h2 with ⟨h3, h4⟩
    rw [List.mem_filter] at h3
    simp only [decide_eq_true_eq] at h3 h4
    simp only [Bool.and_eq_true, decide_eq_true_eq]
    exact ⟨h3.2, h4⟩
  · intro ty
    simp only [get_best_options]
    exact List.length_take_le _ _
  · intro ty
    simp only [get_best_options]
    exact pairwise_take_mergeSort (discountOf spot ty) _ limit

/-! ## Analysis of the error function, for the pricing-engine claims. -/

theorem continuous_gauss : Continuous fun t : ℝ => Real.exp (-t ^ 2) :=
  Real.continuous_exp.comp (continuous_pow 2).neg

theorem gauss_intervalIntegrable (a b : ℝ) :
    IntervalIntegrable (fun t : ℝ => Real.exp (-t ^ 2)) volume a b :=
  continuous_gauss.intervalIntegrable a b

theorem gauss_integrable : Integrable fun t : ℝ => Real.exp (-t ^ 2) := by
  have h := integrable_exp_neg_mul_sq (b := (1 : ℝ)) one_pos
  simpa using h

theorem sqrt_pi_pos : 0 < Real.sqrt Real.pi :=
  Real.sqrt_pos.mpr Real.pi_pos

theorem erf_nonneg {x : ℝ} (hx : 0 ≤ x) : 0 ≤ erf x := by
  unfold erf
  refine mul_nonneg (by positivity) ?_
  exact intervalIntegral.integral_nonneg hx (fun u _ => (Real.exp_pos _).le)

theorem erf_lt_erf {a b : ℝ} (h : a < b) : erf a < erf b := by
  unfold erf
  have hadd := intervalIntegral.integral_add_adjacent_intervals
    (gauss_intervalIntegrable 0 a) (gauss_intervalIntegrable a b)
  have hpos : 0 < ∫ t in a..b, Real.exp (-t ^ 2) :=
    intervalIntegral.intervalIntegral_pos_of_pos_on
      (gauss_intervalIntegrable a b) (fun x _ => Real.exp_pos _) h
  have hc : 0 < 2 / Real.sqrt Real.pi := by positivity
  nlinarith [hadd, hpos, hc]

theorem erf_neg_eq (x : ℝ) : erf (-x) = -erf x := by
  unfold erf
  have h1 := intervalIntegral.integral_comp_neg
    (a := (0 : ℝ)) (b := x) (f := fun t : ℝ => Real.exp (-t ^ 2))
  simp only [neg_sq, neg_zero] at h1
  have h2 : (∫ t in (0:ℝ)..(-x), Real.exp (-t ^ 2))
      = - ∫ t in (-x)..(0:ℝ), Real.exp (-t ^ 2) :=
    (intervalIntegral.integral_symm _ _)
  rw [h2, ← h1]
  ring

theorem norm_cdf_add_neg (x : ℝ) : norm_cdf x + norm_cdf (-x) = 1 := by
  unfold norm_cdf
  rw [neg_div, erf_neg_eq]
  ring

theorem norm_cdf_sub_neg (a : ℝ) :
    norm_cdf a - norm_cdf (-a) = erf (a / Real.sqrt 2) := by
  unfold norm_cdf
  rw [neg_div, erf_neg_eq]
  ring

theorem integral_Iic_gauss_zero :
    ∫ t in Iic (0:ℝ), Real.exp (-t ^ 2) = Real.sqrt Real.pi / 2 := by
  have h2 := integral_comp_neg_Iic (0 : ℝ) (fun t : ℝ => Real.exp (-t ^ 2))
  simp only [neg_sq, neg_zero] at h2
  rw [h2]
  have h3 := integral_gaussian_Ioi 1
  simpa using h3

theorem integral_gauss_total :
    ∫ t : ℝ, Real.exp (-t ^ 2) = Real.sqrt Real.pi := by
  have h := integral_gaussian 1
  simpa using h

theorem integral_Iic_gauss (c : ℝ) :
    ∫ t in Iic c, Real.exp (-t ^ 2)
      = Real.sqrt Real.pi / 2 + ∫ t in (0:ℝ)..c, Real.exp (-t ^ 2) := by
  have h := integral_Iic_sub_Iic (f := fun t : ℝ => Real.exp (-t ^ 2))
    (μ := volume) (a := (0:ℝ)) (b := c)
    gauss_integrable.integrableOn gauss_integrable.integrableOn
  rw [integral_Iic_gauss_zero] at h
  linarith

theorem integral_Ioi_gauss (c : ℝ) :
    ∫ t in Ioi c, Real.exp (-t ^ 2)
      = Real.sqrt Real.pi / 2 - ∫ t in (0:ℝ)..c, Real.exp (-t ^ 2) := by
  have hsplit := integral_Iic_add_Ioi (b := c) (f := fun t : ℝ => Real.exp (-t ^ 2))
    (μ := volume) gauss_integrable.integrableOn gauss_integrable.integrableOn
  rw [integral_Iic_gauss c, integral_gauss_total] at hsplit
  linarith

theorem one_sub_erf (c : ℝ) :
    1 - erf c = (2 / Real.sqrt Real.pi) * ∫ t in Ioi c, Real.exp (-t ^ 2) := by
  unfold erf
  rw [integral_Ioi_gauss]
  have hpi : Real.sqrt Real.pi ≠ 0 := ne_of_gt sqrt_pi_pos
  field_simp
  ring

theorem norm_cdf_neg_eq_tail (y : ℝ) :
    norm_cdf (-y)
      = (1 / Real.sqrt Real.pi)
          * ∫ t in Ioi (y / Real.sqrt 2), Real.exp (-t ^ 2) := by
  unfold norm_cdf
  rw [neg_div, erf_neg_eq]
  have h := one_sub_erf (y / Real.sqrt 2)
  have h2 : erf (y / Real.sqrt 2)
      = 1 - (2 / Real.sqrt Real.pi) * ∫ t in Ioi (y / Real.sqrt 2), Real.exp (-t ^ 2) := by
    linarith
  rw [h2]
  ring

theorem integral_Ioi_comp_add (f : ℝ → ℝ) (c d : ℝ) :
    ∫ x in Ioi c, f (x + d) = ∫ x in Ioi (c + d), f x := by
  have hemb : MeasurableEmbedding (fun x : ℝ => x + d) :=
    (Homeomorph.addRight d).measurableEmbedding
  have hmap := MeasurableEmbedding.setIntegral_map (μ := volume) hemb f (Ioi (c + d))
  rw [map_add_right_eq_self volume d] at hmap
  have hpre : Set.preimage (fun x : ℝ => x + d) (Ioi (c + d)) = Ioi c := by
    ext x
    simp [Set.mem_preimage, Set.mem_Ioi]
  rw [hpre] at hmap
  exact hmap.symm

theorem gauss_tail_le (c d : ℝ) (hd : 0 < d) :
    ∫ t in Ioi (c + d), Real.exp (-t ^ 2)
      ≤ Real.exp (-(2 * d * c + d ^ 2)) * ∫ t in Ioi c, Real.exp (-t ^ 2) := by
  rw [← integral_Ioi_comp_add (fun t => Real.exp (-t ^ 2)) c d]
  have hrhs : Real.exp (-(2 * d * c + d ^ 2)) * ∫ t in Ioi c, Real.exp (-t ^ 2)
      = ∫ t in Ioi c, Real.exp (-(2 * d * c + d ^ 2)) * Real.exp (-t ^ 2) := by
    rw [integral_mul_left]
  rw [hrhs]
  apply setIntegral_mono_on
  · exact (gauss_integrable.comp_add_right d).integrableOn
  · exact (gauss_integrable.const_mul _).integrableOn
  · exact measurableSet_Ioi
  · intro x hx
    rw [← Real.exp_add]
    apply Real.exp_le_exp.mpr
    have hcx : c < x := hx
    nlinarith

theorem norm_cdf_tail_ineq (x ρ : ℝ) (hx : 0 < x) :
    norm_cdf (-(ρ / x + x / 2)) ≤ Real.exp (-ρ) * norm_cdf (-(ρ / x - x / 2)) := by
  have hs2 : (0:ℝ) < Real.sqrt 2 := Real.sqrt_pos.mpr (by norm_num)
  have hsq2 : Real.sqrt 2 * Real.sqrt 2 = 2 := Real.mul_self_sqrt (by norm_num)
  set c := (ρ / x - x / 2) / Real.sqrt 2 with hc
  set d := x / Real.sqrt 2 with hd
  have hdpos : 0 < d := div_pos hx hs2
  have hc1 : (ρ / x + x / 2) / Real.sqrt 2 = c + d := by
    rw [hc, hd]
    ring
  have hrho : 2 * d * c + d ^ 2 = ρ := by
    have hsq2p : Real.sqrt 2 ^ 2 = 2 := Real.sq_sqrt (by norm_num)
    rw [hc, hd]
    field_simp
    linear_combination (2 * x ^ 3 - 4 * x * ρ) * hsq2p
  rw [norm_cdf_neg_eq_tail, norm_cdf_neg_eq_tail, hc1]
  have htail := gauss_tail_le c d hdpos
  rw [hrho] at htail
  have hpi : 0 ≤ 1 / Real.sqrt Real.pi := by positivity
  calc (1 / Real.sqrt Real.pi) * ∫ t in Ioi (c + d), Real.exp (-t ^ 2)
      ≤ (1 / Real.sqrt Real.pi)
          * (Real.exp (-ρ) * ∫ t in Ioi c, Real.exp (-t ^ 2)) :=
        mul_le_mul_of_nonneg_left htail hpi
    _ = Real.exp (-ρ) * ((1 / Real.sqrt Real.pi) * ∫ t in Ioi c, Real.exp (-t ^ 2)) := by
        ring

theorem fair_value_nonneg :
    ∀ (s k : ℝ) (ty : String) (d v r : ℝ),
      0 ≤ calculate_option_fair_value s k ty d v r := by
  intro s k ty d v r
  unfold calculate_option_fair_value
  split_ifs <;> simp [le_max_right]

theorem parity_core (K ρ x : ℝ) (hK : 0 < K) (hx : 0 < x) (hρ : 0 ≤ ρ) :
    max (K * norm_cdf (ρ / x + x / 2)
        - K * Real.exp (-ρ) * norm_cdf (ρ / x + x / 2 - x)) 0
      - max (K * Real.exp (-ρ) * norm_cdf (-(ρ / x + x / 2 - x))
        - K * norm_cdf (-(ρ / x + x / 2))) 0
    = K - K * Real.exp (-ρ) := by
  have hd2 : ρ / x + x / 2 - x = ρ / x - x / 2 := by ring
  rw [hd2]
  have htail : norm_cdf (-(ρ / x + x / 2))
      ≤ Real.exp (-ρ) * norm_cdf (-(ρ / x - x / 2)) := norm_cdf_tail_ineq x ρ hx
  have hput : 0 ≤ K * Real.exp (-ρ) * norm_cdf (-(ρ / x - x / 2))
      - K * norm_cdf (-(ρ / x + x / 2)) := by nlinarith
  have h1 := norm_cdf_add_neg (ρ / x + x / 2)
  have h2 := norm_cdf_add_neg (ρ / x - x / 2)
  have hparity : (K * norm_cdf (ρ / x + x / 2)
        - K * Real.exp (-ρ) * norm_cdf (ρ / x - x / 2))
      - (K * Real.exp (-ρ) * norm_cdf (-(ρ / x - x / 2))
        - K * norm_cdf (-(ρ / x + x / 2)))
      = K - K * Real.exp (-ρ) := by
    linear_combination K * h1 - K * Real.exp (-ρ) * h2
  have hexp1 : Real.exp (-ρ) ≤ 1 := Real.exp_le_one_iff.mpr (neg_nonpos.mpr hρ)
  have hcall : 0 ≤ K * norm_cdf (ρ / x + x / 2)
      - K * Real.exp (-ρ) * norm_cdf (ρ / x - x / 2) := by nlinarith
  rw [max_eq_left hcall, max_eq_left hput]
  exact hparity

theorem fair_value_parity (spot strike days vol rate : ℝ) (hsk : spot = strike)
    (hK : 0 < strike) (hv : 0 < vol) (hr : 0 ≤ rate) :
    calculate_option_fair_value spot strike "CE" days vol rate
      - calculate_option_fair_value spot strike "PE" days vol rate
    = spot - strike * Real.exp (-rate * max (days / 365) 0.01) := by
  subst hsk
  have ht : (0:ℝ) < max (days / 365) 0.01 :=
    lt_of_lt_of_le (by norm_num) (le_max_right _ _)
  have hst : 0 < Real.sqrt (max (days / 365) 0.01) := Real.sqrt_pos.mpr ht
  have hstt : Real.sqrt (max (days / 365) 0.01) ^ 2 = max (days / 365) 0.01 :=
    Real.sq_sqrt ht.le
  have hx : 0 < vol * Real.sqrt (max (days / 365) 0.01) := mul_pos hv hst
  have hcond : 0 < spot ∧ vol ≠ 0 := ⟨hK, ne_of_gt hv⟩
  have hd1 : (Real.log (spot / spot)
        + (rate + 0.5 * vol ^ 2) * max (days / 365) 0.01)
          / (vol * Real.sqrt (max (days / 365) 0.01))
      = (rate * max (days / 365) 0.01)
          / (vol * Real.sqrt (max (days / 365) 0.01))
        + (vol * Real.sqrt (max (days / 365) 0.01)) / 2 := by
    rw [div_self (ne_of_gt hK), Real.log_one]
    field_simp
    linear_combination (-(vol ^ 2 * vol) * Real.sqrt (max (days / 365) 0.01)) * hstt
  have hexp : -rate * max (days / 365) 0.01 = -(rate * max (days / 365) 0.01) := by
    ring
  simp only [calculate_option_fair_value, if_pos hK, if_pos hcond,
    if_pos rfl, if_neg (by decide : ¬ ("PE" = "CE"))]
  rw [hd1, hexp]
  have hρ : 0 ≤ rate * max (days / 365) 0.01 := mul_nonneg hr ht.le
  exact parity_core spot (rate * max (days / 365) 0.01)
    (vol * Real.sqrt (max (days / 365) 0.01)) hK hx hρ

/-- Claim C9 counterexample: at days_to_expiry 1 the source floors the
time term at 0.01 years, not at 1/365, so the call-put difference is
spot - strike * exp(-rate * 0.01) and differs from the claimed parity
value spot - strike * exp(-rate * max(days/365, 1/365)). -/
theorem C9_counterexample :
    calculate_option_fair_value 100 100 "CE" 1 1 0.06
        - calculate_option_fair_value 100 100 "PE" 1 1 0.06
      ≠ 100 - 100 * Real.exp (-0.06 * max ((1:ℝ) / 365) (1 / 365)) := by
  have hpar := fair_value_parity 100 100 1 1 0.06 rfl (by norm_num) (by norm_num)
    (by norm_num)
  rw [hpar, max_eq_right (by norm_num : (1:ℝ) / 365 ≤ 0.01), max_self]
  intro heq
  have h1 : Real.exp (-0.06 * 0.01) = Real.exp (-0.06 * ((1:ℝ) / 365)) := by
    linarith
  have h2 := Real.exp_eq_exp.mp h1
  norm_num at h2

/-- Claim C9 (amended): the fair value is non-negative for every input,
and for spot = strike with positive strike, positive volatility and
non-negative rate the call and put fair values differ by exactly
spot - strike * exp(-rate * t) with t = max(days / 365, 0.01), the time
term the source actually uses. -/
theorem C9_put_call (spot strike days vol rate : ℝ) (hsk : spot = strike)
    (hK : 0 < strike) (hv : 0 < vol) (hr : 0 ≤ rate) :
    (∀ (s k : ℝ) (ty : String) (d v r : ℝ),
        0 ≤ calculate_option_fair_value s k ty d v r)
    ∧ calculate_option_fair_value spot strike "CE" days vol rate
        - calculate_option_fair_value spot strike "PE" days vol rate
      = spot - strike * Real.exp (-rate * max (days / 365) 0.01) :=
  ⟨fair_value_nonneg, fair_value_parity spot strike days vol rate hsk hK hv hr⟩

/-- Concrete instance of claim C9 at spot = strike = 100 with the default
model parameters. -/
theorem C9_put_call_witness :
    ((100:ℝ) = 100 ∧ (0:ℝ) < 100 ∧ (0:ℝ) < 0.2 ∧ (0:ℝ) ≤ 0.06)
    ∧ calculate_option_fair_value 100 100 "CE" 7 0.2 0.06
        - calculate_option_fair_value 100 100 "PE" 7 0.2 0.06
      = 100 - 100 * Real.exp (-0.06 * max ((7:ℝ) / 365) 0.01) :=
  ⟨⟨rfl, by norm_num, by norm_num, by norm_num⟩,
   (C9_put_call 100 100 7 0.2 0.06 rfl (by norm_num) (by norm_num) (by norm_num)).2⟩

theorem fair_value_atm_unit (K T : ℝ) (hK : 0 < K) (hT : 0 < T) :
    max (K * norm_cdf ((Real.log (K / K) + (0 + 0.5 * 1 ^ 2) * T) / (1 * Real.sqrt T))
        - K * Real.exp (-0 * T)
          * norm_cdf ((Real.log (K / K) + (0 + 0.5 * 1 ^ 2) * T) / (1 * Real.sqrt T)
              - 1 * Real.sqrt T)) 0
      = K * erf (Real.sqrt T / (2 * Real.sqrt 2)) := by
  have hs : 0 < Real.sqrt T := Real.sqrt_pos.mpr hT
  have hst : Real.sqrt T ^ 2 = T := Real.sq_sqrt hT.le
  have hlog : Real.log (K / K) = 0 := by rw [div_self (ne_of_gt hK), Real.log_one]
  have hd1 : (Real.log (K / K) + (0 + 0.5 * 1 ^ 2) * T) / (1 * Real.sqrt T)
      = Real.sqrt T / 2 := by
    rw [hlog, div_eq_div_iff (by positivity) (by norm_num)]
    nlinarith [hst]
  have hd2 : (Real.log (K / K) + (0 + 0.5 * 1 ^ 2) * T) / (1 * Real.sqrt T)
        - 1 * Real.sqrt T = -(Real.sqrt T / 2) := by
    rw [hd1]
    ring
  rw [hd2, hd1, show (-0 * T : ℝ) = 0 by ring, Real.exp_zero]
  have hsub := norm_cdf_sub_neg (Real.sqrt T / 2)
  have hval : K * norm_cdf (Real.sqrt T / 2)
        - K * 1 * norm_cdf (-(Real.sqrt T / 2))
      = K * erf (Real.sqrt T / 2 / Real.sqrt 2) := by
    linear_combination K * hsub
  rw [hval, show Real.sqrt T / 2 / Real.sqrt 2 = Real.sqrt T / (2 * Real.sqrt 2) by
    rw [div_div]]
  refine max_eq_left ?_
  refine mul_nonneg hK.le (erf_nonneg ?_)
  positivity

/-- Claim C1 counterexample: at days_to_expiry 1 and unit volatility the
source fair value uses the time term 0.01 while the claim words demand
1/365, and the two values are provably different at spot = strike = 100
with rate 0, because erf is strictly monotone. -/
theorem C1_counterexample :
    calculate_option_fair_value 100 100 "CE" 1 1 0
      ≠ fair_value_claimed 100 100 "CE" 1 1 0 := by
  have hcode : calculate_option_fair_value 100 100 "CE" 1 1 0
      = 100 * erf (Real.sqrt 0.01 / (2 * Real.sqrt 2)) := by
    simp only [calculate_option_fair_value, if_pos (by norm_num : (0:ℝ) < 100),
      if_pos (⟨by norm_num, by norm_num⟩ : (0:ℝ) < 100 ∧ (1:ℝ) ≠ 0), if_pos rfl]
    rw [max_eq_right (by norm_num : (1:ℝ) / 365 ≤ 0.01)]
    exact fair_value_atm_unit 100 0.01 (by norm_num) (by norm_num)
  have hclaim : fair_value_claimed 100 100 "CE" 1 1 0
      = 100 * erf (Real.sqrt ((1:ℝ) / 365) / (2 * Real.sqrt 2)) := by
    simp only [fair_value_claimed, if_pos (by norm_num : (0:ℝ) < 100),
      if_pos (⟨by norm_num, by norm_num⟩ : (0:ℝ) < 100 ∧ (1:ℝ) ≠ 0), if_pos rfl]
    rw [max_self]
    exact fair_value_atm_unit 100 ((1:ℝ) / 365) (by norm_num) (by norm_num)
  rw [hcode, hclaim]
  have hlt : Real.sqrt ((1:ℝ) / 365) < Real.sqrt 0.01 :=
    Real.sqrt_lt_sqrt (by norm_num) (by norm_num)
  have h2 : (0:ℝ) < 2 * Real.sqrt 2 := by positivity
  have harg : Real.sqrt ((1:ℝ) / 365) / (2 * Real.sqrt 2)
      < Real.sqrt 0.01 / (2 * Real.sqrt 2) :=
    (div_lt_div_iff_of_pos_right h2).mpr hlt
  have herf := erf_lt_erf harg
  have hfin : 100 * erf (Real.sqrt ((1:ℝ) / 365) / (2 * Real.sqrt 2))
      < 100 * erf (Real.sqrt 0.01 / (2 * Real.sqrt 2)) := by linarith
  exact hfin.ne'

/-- Claim C1 (amended): the fair value is computed with the time term
t = max(days / 365, 0.01); it returns 0 when strike ≤ 0; in the
non-degenerate case it is the clamped Black-Scholes style formula with
d1 = (ln(spot / strike) + (rate + 0.5 vol^2) t) / (vol sqrt t) and
d2 = d1 - vol sqrt t; the result is never negative; and the arithmetic
failures (log of a non-positive quotient, division by zero volatility)
yield 0. -/
theorem C1_fair_value (spot strike days vol rate : ℝ) (ty : String) :
    (strike ≤ 0 → calculate_option_fair_value spot strike ty days vol rate = 0)
    ∧ 0 ≤ calculate_option_fair_value spot strike ty days vol rate
    ∧ (0 < strike → (spot ≤ 0 ∨ vol = 0) →
        calculate_option_fair_value spot strike ty days vol rate = 0)
    ∧ (0 < strike → 0 < spot → vol ≠ 0 →
        calculate_option_fair_value spot strike ty days vol rate
          = (if ty = "CE" then
               max (spot * norm_cdf ((Real.log (spot / strike)
                      + (rate + 0.5 * vol ^ 2) * max (days / 365) 0.01)
                        / (vol * Real.sqrt (max (days / 365) 0.01)))
                  - strike * Real.exp (-rate * max (days / 365) 0.01)
                    * norm_cdf ((Real.log (spot / strike)
                        + (rate + 0.5 * vol ^ 2) * max (days / 365) 0.01)
                          / (vol * Real.sqrt (max (days / 365) 0.01))
                      - vol * Real.sqrt (max (days / 365) 0.01))) 0
             else
               max (strike * Real.exp (-rate * max (days / 365) 0.01)
                    * norm_cdf (-((Real.log (spot / strike)
                        + (rate + 0.5 * vol ^ 2) * max (days / 365) 0.01)
                          / (vol * Real.sqrt (max (days / 365) 0.01))
                      - vol * Real.sqrt (max (days / 365) 0.01)))
                  - spot * norm_cdf (-((Real.log (spot / strike)
                      + (rate + 0.5 * vol ^ 2) * max (days / 365) 0.01)
                        / (vol * Real.sqrt (max (days / 365) 0.01))))) 0)) := by
  refine ⟨?_, fair_value_nonneg spot strike ty days vol rate, ?_, ?_⟩
  · intro h
    simp only [calculate_option_fair_value, if_neg (not_lt.mpr h)]
  · intro hK h
    have hcond : ¬ (0 < spot ∧ vol ≠ 0) := by
      rcases h with h | h
      · exact fun hc => absurd hc.1 (not_lt.mpr h)
      · exact fun hc => hc.2 h
    simp only [calculate_option_fair_value, if_pos hK, if_neg hcond]
  · intro hK hs hv
    simp only [calculate_option_fair_value, if_pos hK, if_pos (And.intro hs hv)]

/-- Concrete instances of claim C1: the strike ≤ 0 branch and the
arithmetic-failure branch both yield 0. -/
theorem C1_fair_value_witness :
    ((-5:ℝ) ≤ 0 ∧ calculate_option_fair_value 100 (-5) "CE" 7 0.2 0.06 = 0)
    ∧ ((0:ℝ) < 100 ∧ ((-3:ℝ) ≤ 0 ∨ (0.2:ℝ) = 0)
        ∧ calculate_option_fair_value (-3) 100 "CE" 7 0.2 0.06 = 0) :=
  ⟨⟨by norm_num, (C1_fair_value 100 (-5) 7 0.2 0.06 "CE").1 (by norm_num)⟩,
   ⟨by norm_num, Or.inl (by norm_num),
    (C1_fair_value (-3) 100 7 0.2 0.06 "CE").2.2.1 (by norm_num)
      (Or.inl (by norm_num))⟩⟩

/-- Concrete instance of claim C2: the example of the claim, evaluated at
wall clock 65. -/
theorem C2_delta_witness :
    get_change_data [⟨0, 100, 500⟩, ⟨30, 120, 520⟩, ⟨65, 140, 530⟩] 65 1
      = some (20, 10) :=
  (C2_delta ⟨0, 100, 500⟩ ⟨30, 120, 520⟩ [⟨65, 140, 530⟩] 65 1).2

/-- Concrete instance of claim C7: the ranker never returns more than the
requested number of rows. -/
theorem C7_ranker_witness :
    (get_best_options [⟨24800, "PE", 10⟩, ⟨24900, "CE", 12⟩] 24800 "PE" 5).length ≤ 5 :=
  (C7_ranker [⟨24800, "PE", 10⟩, ⟨24900, "CE", 12⟩] 24800 5).2.2.1 "PE"
